import Mathlib

/-!
# Word Mosaic — verification of the board/placement/scoring core

Shallow embedding of the Python sources of the `word-mosaic` repository
(`board.py`, `scoring.py`, `letter_bank.py`, `game.py`) and proofs about the
spec's claims.

Modelling conventions:
* Python `str` is Lean `String`; a board cell holds a string (`""` when empty).
* Python `dict` objects whose key set can change at runtime (the letter bank,
  a hand) are association lists `List (Char × Int)` preserving insertion
  order; `dict` lookup is `List.lookup`.
* Fallible Python code runs in `Except PyErr`; `PyErr` names the Python
  exception class that would be raised.
* `random.choice` is modelled by threading an arbitrary selector `Nat → Nat`
  that picks an index into the list of available letters, so every theorem
  quantifies over all possible random outcomes.
-/

namespace WordMosaic

/-- The Python exception classes raised by the embedded code. -/
inductive PyErr where
  | typeError
  | valueError
  | indexError
  | keyError
  | attributeError
deriving DecidableEq, Repr

/-- Python list indexing `l[i]` for `i : int`: negative indices count from the
end; out-of-range raises `IndexError`. -/
def pyListGet {α : Type} (l : List α) (i : Int) : Except PyErr α :=
  let j : Int := if i < 0 then i + l.length else i
  if h : 0 ≤ j ∧ j.toNat < l.length then .ok (l.get ⟨j.toNat, h.2⟩)
  else .error .indexError

/-- Replace the value of the first pair whose key is `c` (Python
`d[c] = x` on an existing key). -/
def setAssoc : List (Char × Int) → Char → Int → List (Char × Int)
  | [], _, _ => []
  | (k, v) :: t, c, x => if k = c then (k, x) :: t else (k, v) :: setAssoc t c x

/-- Remove the first pair whose key is `c` (Python `del d[c]`). -/
def eraseKey : List (Char × Int) → Char → List (Char × Int)
  | [], _ => []
  | (k, v) :: t, c => if k = c then t else (k, v) :: eraseKey t c

/-- Python `d[c] = d.get(c, 0) + x` pattern: bump an existing key, or append a
new key at the end (dicts preserve insertion order). -/
def incrAssoc (l : List (Char × Int)) (c : Char) (x : Int) : List (Char × Int) :=
  match l.lookup c with
  | some v => setAssoc l c (v + x)
  | none => l ++ [(c, x)]

/-- Total number of tiles recorded in a letter-count dictionary. -/
def sumCounts (l : List (Char × Int)) : Int :=
  l.foldr (fun p acc => p.2 + acc) 0

/-! ## letter_bank.py -/

/-- `LetterBank.LETTER_FREQUENCIES` — the canonical frequency table
(26 letters plus the blank marker `'0'`). -/
def LETTER_FREQUENCIES : List (Char × Int) :=
  [('a', 9), ('b', 2), ('c', 2), ('d', 4), ('e', 12), ('f', 2), ('g', 3),
   ('h', 6), ('i', 9), ('j', 1), ('k', 1), ('l', 4), ('m', 2), ('n', 6),
   ('o', 8), ('p', 2), ('q', 1), ('r', 6), ('s', 4), ('t', 6), ('u', 4),
   ('v', 2), ('w', 2), ('x', 1), ('y', 2), ('z', 1), ('0', 2)]

/-- `LetterBank.LETTER_VALUES` — point values of the letters. -/
def LETTER_VALUES : List (Char × Int) :=
  [('a', 1), ('b', 3), ('c', 3), ('d', 2), ('e', 1), ('f', 4), ('g', 2),
   ('h', 4), ('i', 1), ('j', 8), ('k', 5), ('l', 1), ('m', 3), ('n', 1),
   ('o', 1), ('p', 3), ('q', 10), ('r', 1), ('s', 1), ('t', 1), ('u', 1),
   ('v', 4), ('w', 4), ('x', 8), ('y', 4), ('z', 10), ('0', 0)]

/-- The 27 valid tile symbols (26 letters + blank) of the spec. -/
def validLetters : List Char := LETTER_FREQUENCIES.map Prod.fst

/-- State of `LetterBank`: the mutable count dictionary and the separately
tracked running total. -/
structure LetterBank where
  letter_bank : List (Char × Int)
  letter_bank_total : Int
deriving DecidableEq, Repr

/-- `LetterBank.__init__`: counts seeded from the frequency table. -/
def LetterBank.init : LetterBank :=
  { letter_bank := LETTER_FREQUENCIES
    letter_bank_total := sumCounts LETTER_FREQUENCIES }

/-- `LetterBank._get_random_letter`: `random.choice` over the letters with a
positive count, `None` when none is available.  The selector `sel` stands for
the random index chosen by `random.choice`. -/
def getRandomLetter (bank : List (Char × Int)) (sel : Nat) : Option Char :=
  let letters := (bank.filter (fun p => 0 < p.2)).map Prod.fst
  match letters with
  | [] => none
  | x :: _ => some (letters.getD (sel % letters.length) x)

/-- Loop body of `LetterBank.draw_tiles`: draw up to `n` tiles, stopping when
`letter_bank_total` hits 0.  `drawn` is the `drawn_tiles` dictionary.
A `None` letter would be used as a dict key and then miss in `letter_bank`
(`KeyError`), as would a letter absent from the bank. -/
def drawTilesAux (sel : Nat → Nat) : Nat → List (Char × Int) → LetterBank →
    Except PyErr (List (Char × Int) × LetterBank)
  | 0, drawn, bank => .ok (drawn, bank)
  | n + 1, drawn, bank =>
    if bank.letter_bank_total = 0 then .ok (drawn, bank)
    else
      match getRandomLetter bank.letter_bank (sel n) with
      | none => .error .keyError
      | some c =>
        match bank.letter_bank.lookup c with
        | none => .error .keyError
        | some v =>
          drawTilesAux sel n (incrAssoc drawn c 1)
            { letter_bank := setAssoc bank.letter_bank c (v - 1)
              letter_bank_total := bank.letter_bank_total - 1 }

/-- `LetterBank.draw_tiles(num_tiles)`. -/
def drawTiles (bank : LetterBank) (numTiles : Nat) (sel : Nat → Nat) :
    Except PyErr (List (Char × Int) × LetterBank) :=
  drawTilesAux sel numTiles [] bank

/-- `LetterBank.return_tiles(letter, num_tiles)`: adds tiles back when
`letter` is a key of the `letter_bank` dict, else raises `ValueError`. -/
def returnTiles (bank : LetterBank) (letter : Char) (num : Int) :
    Except PyErr LetterBank :=
  match bank.letter_bank.lookup letter with
  | some v =>
    .ok { letter_bank := setAssoc bank.letter_bank letter (v + num)
          letter_bank_total := bank.letter_bank_total + num }
  | none => .error .valueError

/-- `LetterBank.has_letters(word)` inner loop over an already lowercased
letter list, simulating removal on a `temp_bank` copy. -/
def hasLettersAux : List Char → List (Char × Int) → Bool
  | [], _ => true
  | c :: rest, temp =>
    match temp.lookup c with
    | none => false
    | some v => if v ≤ 0 then false else hasLettersAux rest (setAssoc temp c (v - 1))

/-- `LetterBank.has_letters(word)`. -/
def hasLetters (bank : LetterBank) (word : String) : Bool :=
  hasLettersAux (word.data.map Char.toLower) bank.letter_bank

/-- Loop body of `LetterBank.use_letters`: decrement each letter, deleting the
dict key when the count reaches 0. -/
def useLettersLoop : List Char → LetterBank → Except PyErr LetterBank
  | [], bank => .ok bank
  | c :: rest, bank =>
    match bank.letter_bank.lookup c with
    | none => .error .keyError
    | some v =>
      let lb := setAssoc bank.letter_bank c (v - 1)
      let lb := if v - 1 = 0 then eraseKey lb c else lb
      useLettersLoop rest
        { letter_bank := lb, letter_bank_total := bank.letter_bank_total - 1 }

/-- `LetterBank.use_letters(word)`: returns `False` leaving the bank unchanged
when the letters are not all available, otherwise removes them. -/
def useLetters (bank : LetterBank) (word : String) :
    Except PyErr (Bool × LetterBank) :=
  let w := word.data.map Char.toLower
  if hasLettersAux w bank.letter_bank then
    (useLettersLoop w bank).map (fun b => (true, b))
  else .ok (false, bank)

/-! ## board.py

`Board.__init__` builds `self.board` as a nested (2D) list of rows, hands the
special-tile dict to a `special_tiles_occupied` flag dict, and then evaluates
`Scoring(special_tiles)`.  Several later methods index `self.board` with the
flat expression `row * self.cols + col`, which on the nested list produced by
`__init__` reads a whole row (or runs off the end); the embedding keeps the
nested representation and models those flat reads faithfully.

`__init__` never assigns `self.center`; methods reading `self.center` raise
`AttributeError`. -/

/-- Board coordinate.  Python tuples `(row, col)` of ints. -/
abbrev Pos := Int × Int

/-- The fields `Board.__init__` assigns before the failing `Scoring` call
(the `scoring` attribute is never reached, see `boardInit`). -/
structure Board where
  rows : Nat
  cols : Nat
  board : List (List String)
  special_tiles : List (Pos × String)
  special_tiles_occupied : Pos → Bool

/-- `Scoring.__init__(self, special_tiles, letter_scores)` requires both
positional arguments; a call site that omits `letter_scores` (modelled as
`none`) raises `TypeError`. -/
structure Scoring where
  special_tiles : List (Pos × String)
  letter_scores : List (Char × Int)

/-- `Scoring(special_tiles, letter_scores)` with the second positional
argument possibly missing at the call site. -/
def scoringInit (special_tiles : List (Pos × String))
    (letter_scores : Option (List (Char × Int))) : Except PyErr Scoring :=
  match letter_scores with
  | none => .error .typeError
  | some ls => .ok { special_tiles := special_tiles, letter_scores := ls }

/-- `Board(rows, cols, special_tiles)`: after setting up the grid it runs
`self.scoring = Scoring(special_tiles)`, passing only one of the two required
positional arguments. -/
def boardInit (rows cols : Nat) (special_tiles : List (Pos × String)) :
    Except PyErr Board := do
  let b : Board :=
    { rows := rows
      cols := cols
      board := List.replicate rows (List.replicate cols "")
      special_tiles := special_tiles
      special_tiles_occupied := fun _ => false }
  let _scoring ← scoringInit special_tiles none
  .ok b

/-- Read the cell `self.board[row][col]` of an in-bounds coordinate. -/
def cellAt (b : Board) (row col : Int) : String :=
  (b.board.getD row.toNat []).getD col.toNat ""

/-- `Board.is_valid_position(row, col)`. -/
def isValidPosition (b : Board) (row col : Int) : Bool :=
  decide (0 ≤ row) && decide (row < (b.rows : Int)) &&
    decide (0 ≤ col) && decide (col < (b.cols : Int))

/-- `Board.is_occupied(row, col)`: `ValueError` out of bounds, else whether
the cell differs from `''`. -/
def isOccupied (b : Board) (row col : Int) : Except PyErr Bool :=
  if isValidPosition b row col then .ok (cellAt b row col != "")
  else .error .valueError

/-- Python `str.upper()` (ASCII letters suffice here). -/
def pyUpper (s : String) : String := ⟨s.data.map Char.toUpper⟩

/-- Python `str.isalpha()`: nonempty and all alphabetic. -/
def pyIsAlpha (s : String) : Bool := !s.data.isEmpty && s.data.all Char.isAlpha

/-- Write `self.board[row][col] = v` for an in-bounds coordinate. -/
def setCell (board : List (List String)) (row col : Nat) (v : String) :
    List (List String) :=
  board.set row ((board.getD row []).set col v)

/-- `Board.place_letter(letter, row, col)`.  The leading debug `print`
indexes `self.board[row]` before any validation; then the letter and the
position are validated, the cell is set to the uppercased letter (the blank
marker `'0'` is stored as the empty string), and an occupied special tile is
flagged. -/
def placeLetter (b : Board) (letter : String) (row col : Int) :
    Except PyErr Board := do
  let _beforeRow ← pyListGet b.board row
  if letter.data.length ≠ 1 then .error .valueError
  else if !(pyIsAlpha letter) && letter != "0" then .error .valueError
  else if !(isValidPosition b row col) then .error .valueError
  else do
    let occ ← isOccupied b row col
    if occ then .error .valueError
    else
      let v := if letter != "0" then pyUpper letter else ""
      let occupied1 :=
        if (b.special_tiles.lookup (row, col)).isSome then
          fun p => if p = (row, col) then true else b.special_tiles_occupied p
        else b.special_tiles_occupied
      .ok { b with board := setCell b.board row.toNat col.toNat v
                   special_tiles_occupied := occupied1 }

/-- `Board.has_adjacent_letter(row, col)`: any of the four orthogonal
neighbours, bounds-checked, occupied.  (`is_occupied` is only called on
coordinates already known valid, so no error can escape.) -/
def hasAdjacentLetter (b : Board) (row col : Int) : Bool :=
  if !(isValidPosition b row col) then false
  else
    [(row - 1, col), (row + 1, col), (row, col - 1), (row, col + 1)].any
      (fun p => isValidPosition b p.1 p.2 && (cellAt b p.1 p.2 != ""))

/-- `Board.is_valid_placement(letter, row, col, first_play)`.  When
`first_play` is true the code evaluates `self.center`, an attribute
`__init__` never assigns, raising `AttributeError`. -/
def isValidPlacement (b : Board) (letter : String) (row col : Int)
    (first_play : Bool) : Except PyErr Bool :=
  if letter.data.length ≠ 1 || !(pyIsAlpha letter) then .error .valueError
  else if !(isValidPosition b row col) then .ok false
  else do
    let occ ← isOccupied b row col
    if occ then .ok false
    else if first_play then .error .attributeError
    else if !(hasAdjacentLetter b row col) then .ok false
    else .ok true

/-- Walk left from `start` while the left neighbour is occupied
(`while start_col > 0 and self.is_occupied(row, start_col - 1)`). -/
def findRunStart (occ : Nat → Bool) : Nat → Nat
  | 0 => 0
  | k + 1 => if occ k then findRunStart occ k else k + 1

/-- Walk right from `e` while `e < limit - 1` and the right neighbour is
occupied; `fuel` bounds the loop (the source loop advances at most
`limit` times). -/
def findRunEnd (occ : Nat → Bool) (limit : Nat) : Nat → Nat → Nat
  | 0, e => e
  | fuel + 1, e =>
    if e + 1 < limit && occ (e + 1) then findRunEnd occ limit fuel (e + 1)
    else e

/-- The word-building loop of `Board.get_horizontal_word`:
`word += self.board[row * self.cols + c]`.  `self.board` is the nested list
built by `__init__`, so the flat index either reads a whole row — and
`str + list` raises `TypeError` — or runs past the end (`IndexError`). -/
def buildWordFlat (b : Board) (base : Int) (cs : List Nat) :
    Except PyErr String :=
  cs.foldlM
    (fun (_word : String) c => do
      let _item ← pyListGet b.board (base + (c : Int))
      (.error .typeError : Except PyErr String))
    ""

/-- `Board.get_horizontal_word(row, col)`. -/
def getHorizontalWord (b : Board) (row col : Int) : Except PyErr String :=
  if !(isValidPosition b row col) then .ok ""
  else if !(cellAt b row col != "") then .ok ""
  else
    let occ : Nat → Bool := fun c => cellAt b row c != ""
    let startCol := findRunStart occ col.toNat
    let endCol := findRunEnd occ b.cols b.cols col.toNat
    buildWordFlat b (row * (b.cols : Int))
      (List.range' startCol (endCol + 1 - startCol))

/-- `Board.get_vertical_word(row, col)`; its building loop suffers the same
flat indexing (`self.board[r * self.cols + col]`). -/
def getVerticalWord (b : Board) (row col : Int) : Except PyErr String :=
  if !(isValidPosition b row col && (cellAt b row col != "")) then .ok ""
  else
    let occ : Nat → Bool := fun r => cellAt b r col != ""
    let startRow := findRunStart occ row.toNat
    let endRow := findRunEnd occ b.rows b.rows row.toNat
    (List.range' startRow (endRow + 1 - startRow)).foldlM
      (fun (_word : String) r => do
        let _item ← pyListGet b.board ((r : Int) * (b.cols : Int) + col)
        (.error .typeError : Except PyErr String))
      ""

/-- One line scan of `Board.get_all_words`: accumulate maximal occupied runs,
keeping those of length `> 1` as `(word, positions)` pairs. -/
def collectRuns : List (String × Pos) → String → List Pos →
    List (String × List Pos)
  | [], cur, ps => if 1 < cur.data.length then [(cur, ps)] else []
  | (letter, p) :: rest, cur, ps =>
    if letter != "" then collectRuns rest (cur ++ letter) (ps ++ [p])
    else
      (if 1 < cur.data.length then [(cur, ps)] else []) ++ collectRuns rest "" []

/-- The cells of row `row` in column order, paired with their coordinates. -/
def rowCells (b : Board) (row : Nat) : List (String × Pos) :=
  (List.range b.cols).map
    (fun col => (cellAt b row col, ((row : Int), (col : Int))))

/-- The cells of column `col` in row order, paired with their coordinates. -/
def colCells (b : Board) (col : Nat) : List (String × Pos) :=
  (List.range b.rows).map
    (fun row => (cellAt b row col, ((row : Int), (col : Int))))

/-- `Board.get_all_words()`: all horizontal runs (rows in order), then all
vertical runs (columns in order), each of length `> 1`. -/
def getAllWords (b : Board) : List (String × List Pos) :=
  ((List.range b.rows).map (fun r => collectRuns (rowCells b r) "" [])).flatten ++
    ((List.range b.cols).map (fun c => collectRuns (colCells b c) "" [])).flatten

/-! ## scoring.py -/

/-- `Scoring.get_letter_score(letter)`: `self.letter_scores.get(letter.lower(), 0)`. -/
def getLetterScore (letter_scores : List (Char × Int)) (letter : Char) : Int :=
  (letter_scores.lookup letter.toLower).getD 0

/-- The length-bonus multiplier of `Scoring.calculate_word_score` followed by
`int(word_score * length_bonus)`: `3.0` for 7+, `2.0` for 6, `1.5` for 5
(exact in floating point for these magnitudes; `int` truncates toward 0,
which is `Int.quot`). -/
def applyLengthBonus (len : Nat) (ws : Int) : Int :=
  if 7 ≤ len then ws * 3
  else if len = 6 then ws * 2
  else if len = 5 then Int.tdiv (ws * 3) 2
  else ws

/-- Letter loop of `Scoring.calculate_word_score`: `for i, letter in
enumerate(word)` with `position = positions[i]`, accumulating the letter sum
and the word multiplier from the special-tile dict. -/
def wordScoreLoop (tiles : List (Pos × String)) (scores : List (Char × Int)) :
    List Char → Nat → List Pos → Int → Int → Except PyErr (Int × Int)
  | [], _, _, ws, wm => .ok (ws, wm)
  | letter :: rest, i, positions, ws, wm => do
    let position ← pyListGet positions (i : Int)
    let ls := getLetterScore scores letter
    let (ls, wm) :=
      match tiles.lookup position with
      | some t =>
        if t = "DL" then (ls * 2, wm)
        else if t = "TL" then (ls * 3, wm)
        else if t = "DW" then (ls, wm * 2)
        else if t = "TW" then (ls, wm * 3)
        else (ls, wm)
      | none => (ls, wm)
    wordScoreLoop tiles scores rest (i + 1) positions (ws + ls) wm

/-- `Scoring.calculate_word_score(word, positions)`.  It reads only the
special-tile type dict and the letter scores; it neither consults nor updates
any consumed/occupied flag. -/
def calcWordScore (tiles : List (Pos × String)) (scores : List (Char × Int))
    (word : String) (positions : List Pos) : Except PyErr Int := do
  let (ws, wm) ← wordScoreLoop tiles scores word.data 0 positions 0 1
  .ok (applyLengthBonus word.data.length (ws * wm))

/-- `Scoring.calculate_connection_bonus(positions, existing_positions)`:
`len(set(positions) & set(existing_positions)) * 2`. -/
def calcConnectionBonus (positions existing : List Pos) : Int :=
  2 * ((positions.dedup.filter (fun p => existing.contains p)).length : Int)

/-- Word loop of `Scoring.calculate_turn_score`: per word, the word score,
plus the connection bonus when `existing_positions` is nonempty, plus the
50-point bingo bonus at length 7.  (The statistics fields the source also
updates do not feed back into the returned turn score and are not modelled.) -/
def turnScoreLoop (tiles : List (Pos × String)) (scores : List (Char × Int))
    (existing : List Pos) :
    List (String × List Pos) → Int → Except PyErr Int
  | [], acc => .ok acc
  | (word, positions) :: rest, acc => do
    let ws ← calcWordScore tiles scores word positions
    let ws := if existing.isEmpty then ws
      else ws + calcConnectionBonus positions existing
    let acc := acc + ws
    let acc := if word.data.length = 7 then acc + 50 else acc
    turnScoreLoop tiles scores existing rest acc

/-- `Scoring.calculate_turn_score(words, board_positions)`: existing positions
are the board positions with every position of every submitted word removed
(`pos not in current_word_positions`). -/
def calcTurnScore (tiles : List (Pos × String)) (scores : List (Char × Int))
    (words : List (String × List Pos)) (board_positions : Option (List Pos)) :
    Except PyErr Int :=
  let bps := board_positions.getD []
  let cwp := (words.map Prod.snd).flatten
  let existing := bps.filter (fun p => !(cwp.contains p))
  turnScoreLoop tiles scores existing words 0

/-- `Scoring.validate_word_positions(word, positions)`. -/
def validateWordPositions (positions : List Pos) : Bool :=
  (positions.map Prod.fst).dedup.length = 1 ∨
    (positions.map Prod.snd).dedup.length = 1

/-! ### Spec comparator for the multiplier-consumption rule (claim C4)

The following definition follows the WORDS OF THE SPEC (§4.5 `scoreWord`),
not the source: a letter or word multiplier applies only if its cell has not
already been consumed, and applying it marks the cell consumed.  It exists
solely to be compared with `calcWordScore`. -/

/-- Letter loop of the spec's `scoreWord`, threading the set of consumed
special cells. -/
def specWordScoreLoop (tiles : List (Pos × String)) (scores : List (Char × Int)) :
    List (Char × Pos) → Int → Int → List Pos → Int × Int × List Pos
  | [], ws, wm, consumed => (ws, wm, consumed)
  | (letter, p) :: rest, ws, wm, consumed =>
    let ls := getLetterScore scores letter
    let fresh := !(consumed.contains p)
    let (ls, wm, consumed) :=
      match tiles.lookup p with
      | some t =>
        if t = "DL" then (if fresh then (ls * 2, wm, consumed ++ [p]) else (ls, wm, consumed))
        else if t = "TL" then (if fresh then (ls * 3, wm, consumed ++ [p]) else (ls, wm, consumed))
        else if t = "DW" then (if fresh then (ls, wm * 2, consumed ++ [p]) else (ls, wm, consumed))
        else if t = "TW" then (if fresh then (ls, wm * 3, consumed ++ [p]) else (ls, wm, consumed))
        else (ls, wm, consumed)
      | none => (ls, wm, consumed)
    specWordScoreLoop tiles scores rest (ws + ls) wm consumed

/-- The spec's `scoreWord(word, cells)` with explicit consumed-set state:
returns the score and the updated consumed set. -/
def specWordScoreConsuming (tiles : List (Pos × String))
    (scores : List (Char × Int)) (consumed : List Pos) (word : String)
    (positions : List Pos) : Int × List Pos :=
  let (ws, wm, consumed1) :=
    specWordScoreLoop tiles scores (word.data.zip positions) 0 1 consumed
  (applyLengthBonus word.data.length (ws * wm), consumed1)

/-! ## letter_bank.py — PlayerHand

The `letter_order` display list only mirrors the multiset held in the `hand`
dict for UI shuffling; it carries no tile counts and is not modelled. -/

/-- State of `PlayerHand`: counts dict, tracked total, and the bound. -/
structure PlayerHand where
  max_size : Int
  hand : List (Char × Int)
  hand_total : Int
deriving DecidableEq, Repr

/-- `LetterBank.create_player_hand(max_size=20)`: an empty hand. -/
def createPlayerHand (max_size : Int) : PlayerHand :=
  { max_size := max_size, hand := [], hand_total := 0 }

/-- `PlayerHand.add_letter(letter)`: reject when the hand is full. -/
def addLetter (hand : PlayerHand) (letter : Char) : Bool × PlayerHand :=
  if hand.max_size ≤ hand.hand_total then (false, hand)
  else
    (true, { hand with hand := incrAssoc hand.hand letter 1
                       hand_total := hand.hand_total + 1 })

/-- `PlayerHand.remove_letter(letter)`: decrement when present with a positive
count, deleting the dict key at zero. -/
def removeLetter (hand : PlayerHand) (letter : Char) : Bool × PlayerHand :=
  match hand.hand.lookup letter with
  | some v =>
    if 0 < v then
      let h1 := setAssoc hand.hand letter (v - 1)
      let h2 := if v - 1 = 0 then eraseKey h1 letter else h1
      (true, { hand with hand := h2, hand_total := hand.hand_total - 1 })
    else (false, hand)
  | none => (false, hand)

/-- `PlayerHand.refill(count)` with an explicit count: draw from the bank and
merge the drawn tiles into the hand. -/
def refill (bank : LetterBank) (hand : PlayerHand) (count : Nat)
    (sel : Nat → Nat) : Except PyErr (LetterBank × PlayerHand) :=
  if count = 0 then .ok (bank, hand)
  else do
    let (drawn, bank1) ← drawTiles bank count sel
    let hand1 := drawn.foldl (fun acc p => incrAssoc acc p.1 p.2) hand.hand
    .ok (bank1, { hand with hand := hand1
                            hand_total := hand.hand_total + sumCounts drawn })

/-- `PlayerHand.return_to_bank(letter)`: remove from the hand, then
`return_tiles`; a `ValueError` there is caught and the letter is added back. -/
def returnToBank (bank : LetterBank) (hand : PlayerHand) (letter : Char) :
    Bool × LetterBank × PlayerHand :=
  let (removed, hand1) := removeLetter hand letter
  if removed then
    match returnTiles bank letter 1 with
    | .ok bank1 => (true, bank1, hand1)
    | .error _ => ((addLetter hand1 letter).1, bank, (addLetter hand1 letter).2)
  else (false, bank, hand)

/-- The tile-moving operations of claim C5's sequences that the code actually
routes through the bank: a draw (`PlayerHand.refill` → `draw_tiles`, with the
random choices abstracted by `sel`) and a return (`PlayerHand.return_to_bank`
→ `return_tiles`). -/
inductive BankOp where
  | draw (count : Nat) (sel : Nat → Nat)
  | giveBack (letter : Char)

/-- Bank-and-hand system state. -/
abbrev SysState := LetterBank × PlayerHand

/-- Fresh system: a new `LetterBank` and the empty hand it creates. -/
def initSys : SysState := (LetterBank.init, createPlayerHand 20)

/-- Apply one operation. -/
def applyOp (s : SysState) : BankOp → Except PyErr SysState
  | .draw count sel => refill s.1 s.2 count sel
  | .giveBack letter =>
    let r := returnToBank s.1 s.2 letter
    .ok (r.2.1, r.2.2)

/-- Apply a sequence of operations. -/
def applyOps (s : SysState) : List BankOp → Except PyErr SysState
  | [] => .ok s
  | op :: rest => do applyOps (← applyOp s op) rest

/-! ## game.py -/

/-- The outcome dictionary of `Game.end_turn`. -/
inductive TurnOutcome where
  | invalid (reason : String)
  | valid (score : Int) (total_score : Int) (words : List (String × List Pos))
deriving DecidableEq, Repr

/-- The `Game` fields `end_turn` reads or writes. -/
structure GameState where
  board : Board
  current_turn_letters : List String
  current_turn_positions : List Pos
  current_score : Int
  played_words : List String
  turn_number : Int
  first_play : Bool

/-- `Game.end_turn()` with the dictionary-validation capability as the
black-box parameter `validator`.

Faithful points worth naming:
* when any candidate word is invalid it returns the `invalid` dict at once —
  no board cell is cleared, no letter returns to the hand, no tracking is
  reset (the comment in the source says "undo the turn" but no code does);
* on a non-first turn the connectivity loop calls `self.board.is_connected`,
  a method `Board` does not define, raising `AttributeError`;
* on the commit path it calls
  `self.scoring.calculate_word_score(word, positions, self.board)` — three
  positional arguments for a method defined with two — raising `TypeError`
  before any score, doubling, or state update happens. -/
def endTurn (validator : String → Bool) (g : GameState) :
    Except PyErr (TurnOutcome × GameState) :=
  if g.current_turn_letters.isEmpty then
    .ok (.invalid "No letters placed", g)
  else
    let center_row : Int := (g.board.rows / 2 : Nat)
    let center_col : Int := (g.board.cols / 2 : Nat)
    if g.first_play &&
        !(g.current_turn_positions.any
          (fun p => p.1 == center_row && p.2 == center_col)) then
      .ok (.invalid "First play must include the center position", g)
    else
      let same_row :=
        match g.current_turn_positions with
        | [] => true
        | p :: _ => g.current_turn_positions.all (fun q => q.1 == p.1)
      let same_col :=
        match g.current_turn_positions with
        | [] => true
        | p :: _ => g.current_turn_positions.all (fun q => q.2 == p.2)
      if !(same_row || same_col) then
        .ok (.invalid "All letters must be placed in the same row or column", g)
      else if !g.first_play && !g.current_turn_positions.isEmpty then
        .error .attributeError
      else if !g.first_play && g.current_turn_positions.isEmpty then
        .ok (.invalid "New letters must connect to existing letters", g)
      else
        let words := getAllWords g.board
        let candidates := words.filter
          (fun wp => wp.2.any (fun p => g.current_turn_positions.contains p))
        let invalid_words := candidates.filter (fun wp => !(validator wp.1))
        let valid_words := candidates.filter (fun wp => validator wp.1)
        if !invalid_words.isEmpty then
          .ok (.invalid "Invalid word(s)", g)
        else if valid_words.isEmpty then
          .ok (.invalid "No valid words formed", g)
        else
          .error .typeError

/-! ## Concrete test fixtures -/

/-- An empty 15×15 board record (the state `Board.__init__` would produce with
no special tiles, were its `Scoring` call not failing). -/
def emptyBoard15 : Board :=
  { rows := 15, cols := 15
    board := List.replicate 15 (List.replicate 15 "")
    special_tiles := []
    special_tiles_occupied := fun _ => false }

/-- Row 7 of a board holding the word APPLE at columns 7–11. -/
def appleRow : List String :=
  ["", "", "", "", "", "", "", "A", "P", "P", "L", "E", "", "", ""]

/-- A 15×15 board with APPLE placed horizontally at `(7,7)`–`(7,11)`. -/
def appleBoard : Board :=
  { emptyBoard15 with
    board := (List.replicate 15 (List.replicate 15 "")).set 7 appleRow }

/-- Row 7 of a board holding the letters Z X at columns 7, 8. -/
def zxRow : List String :=
  ["", "", "", "", "", "", "", "Z", "X", "", "", "", "", "", ""]

/-- Game state in the middle of the first turn: the player has placed Z at
`(7,7)` and X at `(7,8)`; the cells are already on the board and the turn
tracking lists are filled, exactly as after two `Game.place_letter` calls. -/
def gZX : GameState :=
  { board := { emptyBoard15 with
               board := (List.replicate 15 (List.replicate 15 "")).set 7 zxRow }
    current_turn_letters := ["Z", "X"]
    current_turn_positions := [(7, 7), (7, 8)]
    current_score := 0
    played_words := []
    turn_number := 1
    first_play := true }

/-- Row 7 of a board holding the letters A T at columns 7, 8. -/
def atRow : List String :=
  ["", "", "", "", "", "", "", "A", "T", "", "", "", "", "", ""]

/-- Game state in the middle of the first turn with A at `(7,7)` and T at
`(7,8)` placed. -/
def gAT : GameState :=
  { board := { emptyBoard15 with
               board := (List.replicate 15 (List.replicate 15 "")).set 7 atRow }
    current_turn_letters := ["A", "T"]
    current_turn_positions := [(7, 7), (7, 8)]
    current_score := 0
    played_words := []
    turn_number := 1
    first_play := true }

/-! ## Claim theorems -/

/-- C2: for every `rows`, `cols` and `special_tiles`, `Board(rows, cols,
special_tiles)` raises `TypeError`, because it invokes `Scoring(special_tiles)`
while `Scoring.__init__` requires the second positional argument
`letter_scores`; no `Board` instance can be created through the constructor. -/
theorem board_constructor_always_type_error
    (rows cols : Nat) (special_tiles : List (Pos × String)) :
    boardInit rows cols special_tiles = .error .typeError := rfl

/-- C1 (code bug): ending the first turn with the candidate word ZX rejected
by the dictionary, `Game.end_turn` returns the `invalid` outcome with the game
state completely unchanged: the cells `(7,7)`, `(7,8)` placed this turn are
still occupied (`Z` remains at `(7,7)`), the letters are not returned, and no
rollback of any kind happens (the running score is indeed unchanged). -/
theorem end_turn_invalid_word_no_rollback :
    endTurn (fun _ => false) gZX = .ok (.invalid "Invalid word(s)", gZX) ∧
      cellAt gZX.board 7 7 = "Z" ∧ cellAt gZX.board 7 8 = "X" ∧
      gZX.current_turn_letters = ["Z", "X"] ∧ gZX.current_score = 0 :=
  ⟨rfl, rfl, rfl, rfl, rfl⟩

/-- C10 (code bug): on the commit path — first play, centre covered, letters
in one row, the only candidate word AT accepted by the dictionary —
`Game.end_turn` raises `TypeError`: it calls
`self.scoring.calculate_word_score(word, positions, self.board)` with three
positional arguments while the method is defined with two, so no turn ever
commits and the first-play doubling is never reached. -/
theorem end_turn_commit_path_type_error :
    endTurn (fun w => w == "AT") gAT = .error .typeError := rfl

/-- C6 (code bug): on a 15×15 board, `is_valid_placement('A', 7, 7,
first_play=True)` — an in-bounds, empty, centre coordinate for which the claim
requires the result `True` — raises `AttributeError`, because the first-play
branch evaluates `self.center` and `Board.__init__` never assigns `center`. -/
theorem is_valid_placement_first_play_attribute_error :
    isValidPlacement emptyBoard15 "A" 7 7 true = .error .attributeError := rfl

/-- C7 (code bug): on the APPLE board, `get_all_words` returns exactly the
occurrence `("APPLE", [(7,7)..(7,11)])`, but `get_horizontal_word(7, 7)` —
which the claim requires to return `"APPLE"` without raising — raises
`IndexError`: its word-building loop reads `self.board[row * self.cols + c]`,
a flat index into the nested row list built by `__init__`. -/
theorem get_horizontal_word_round_trip_fails :
    getAllWords appleBoard =
        [("APPLE", [(7, 7), (7, 8), (7, 9), (7, 10), (7, 11)])] ∧
      getHorizontalWord appleBoard 7 7 = .error .indexError :=
  ⟨rfl, rfl⟩

/-! ### C3: the connection bonus is unreachable -/

/-- `Except.ok` bind computation rule. -/
theorem ok_bind {α β : Type} (w : α) (f : α → Except PyErr β) :
    (Except.ok w >>= f) = f w := rfl

/-- Every position of every submitted word is in `current_word_positions`, so
the filtered `existing_positions` never meets a word's cells: the bonus is 0. -/
theorem calcConnectionBonus_eq_zero (positions cwp bps : List Pos)
    (hsub : ∀ p ∈ positions, p ∈ cwp) :
    calcConnectionBonus positions (bps.filter (fun p => !(cwp.contains p))) = 0 := by
  unfold calcConnectionBonus
  have hnil : (positions.dedup.filter
      (fun p => (bps.filter (fun q => !(cwp.contains q))).contains p)) = [] := by
    rw [List.filter_eq_nil_iff]
    intro p hp hc
    have hmem : p ∈ cwp := hsub p (List.mem_dedup.mp hp)
    have hpin : p ∈ bps.filter (fun q => !(cwp.contains q)) := List.elem_iff.mp hc
    have hnc : (!(cwp.contains p)) = true := (List.mem_filter.mp hpin).2
    have hcc : cwp.contains p = true := List.elem_iff.mpr hmem
    rw [hcc] at hnc
    exact Bool.false_ne_true hnc
  rw [hnil]
  rfl

/-- With a per-word bonus of 0, the loop ignores `existing_positions`. -/
theorem turnScoreLoop_ignores_existing (tiles : List (Pos × String))
    (scores : List (Char × Int)) (existing : List Pos)
    (ws : List (String × List Pos)) (acc : Int)
    (h : ∀ wp ∈ ws, calcConnectionBonus wp.2 existing = 0) :
    turnScoreLoop tiles scores existing ws acc =
      turnScoreLoop tiles scores [] ws acc := by
  induction ws generalizing acc with
  | nil => rfl
  | cons wp rest ih =>
    obtain ⟨word, positions⟩ := wp
    simp only [turnScoreLoop]
    cases calcWordScore tiles scores word positions with
    | error e => rfl
    | ok w =>
      have hb : calcConnectionBonus positions existing = 0 :=
        h (word, positions) (List.mem_cons_self _ _)
      have hrest : ∀ wp ∈ rest, calcConnectionBonus wp.2 existing = 0 :=
        fun wp hwp => h wp (List.mem_cons_of_mem _ hwp)
      by_cases he : existing.isEmpty
      · simp only [ok_bind, he, if_true, List.isEmpty_nil, ih _ hrest]
      · simp only [ok_bind, he, if_false, hb, add_zero, List.isEmpty_nil,
          if_true, ite_self, ih _ hrest]

/-- C3 (code bug): scoring the turn that forms DRAMA down through the
pre-existing A of APPLE at `(7,7)` yields exactly the bare word score 12, not
12 + 2: the claimed 2-point connection bonus for the crossing cell is not
awarded.  In general `calculate_turn_score` removes every cell of every
submitted word from `existing_positions` before intersecting, so the
connection bonus is identically zero and the board positions argument never
affects the result. -/
theorem calc_turn_score_awards_no_connection_bonus :
    (calcTurnScore [] LETTER_VALUES
        [("DRAMA", [(3, 7), (4, 7), (5, 7), (6, 7), (7, 7)])]
        (some [(7, 7), (7, 8), (7, 9), (7, 10), (7, 11)]) = .ok 12 ∧
      calcWordScore [] LETTER_VALUES "DRAMA"
        [(3, 7), (4, 7), (5, 7), (6, 7), (7, 7)] = .ok 12) ∧
    ∀ (tiles : List (Pos × String)) (scores : List (Char × Int))
      (words : List (String × List Pos)) (bps : List Pos),
      calcTurnScore tiles scores words (some bps) =
        calcTurnScore tiles scores words none := by
  refine ⟨⟨rfl, rfl⟩, ?_⟩
  intro tiles scores words bps
  unfold calcTurnScore
  simp only [Option.getD_some, Option.getD_none, List.filter_nil]
  exact turnScoreLoop_ignores_existing tiles scores _ words 0
    (fun wp hwp => calcConnectionBonus_eq_zero wp.2 _ bps
      (fun p hp => List.mem_flatten.mpr
        ⟨wp.2, List.mem_map_of_mem _ hwp, hp⟩))

/-! ### C4: the code never consumes a multiplier -/

/-- `positions[i]` succeeds for an in-range index. -/
theorem pyListGet_ok {α : Type} (l : List α) (i : Nat) (h : i < l.length) :
    pyListGet l (i : Int) = .ok (l.get ⟨i, h⟩) := by
  unfold pyListGet
  have h0 : ¬((i : Int) < 0) := by omega
  simp only [h0, if_false]
  have h1 : 0 ≤ (i : Int) ∧ ((i : Int)).toNat < l.length := by
    constructor
    · omega
    · simpa using h
  rw [dif_pos h1]
  simp

/-- The code's letter loop agrees with the spec's consuming loop as long as
no remaining position has been consumed yet and the remaining positions are
distinct: freshness always holds, so the spec multiplies exactly where the
code does. -/
theorem wordScoreLoop_eq_spec (tiles : List (Pos × String))
    (scores : List (Char × Int)) (positions : List Pos) :
    ∀ (chars : List Char) (i : Nat) (ws wm : Int) (consumed : List Pos),
    i + chars.length ≤ positions.length →
    (∀ p ∈ positions.drop i, ¬p ∈ consumed) →
    (positions.drop i).Nodup →
    wordScoreLoop tiles scores chars i positions ws wm =
      .ok ((specWordScoreLoop tiles scores (chars.zip (positions.drop i)) ws wm consumed).1,
        (specWordScoreLoop tiles scores (chars.zip (positions.drop i)) ws wm consumed).2.1) := by
  intro chars
  induction chars with
  | nil =>
    intro i ws wm consumed _ _ _
    simp [wordScoreLoop, specWordScoreLoop]
  | cons letter rest ih =>
    intro i ws wm consumed hlen hcons hnd
    have hi : i < positions.length := by simp at hlen; omega
    have hdrop : positions.drop i = positions.get ⟨i, hi⟩ :: positions.drop (i + 1) := by
      simp only [List.get_eq_getElem]
      exact List.drop_eq_getElem_cons hi
    set p := positions.get ⟨i, hi⟩ with hp
    have hpin : p ∈ positions.drop i := by rw [hdrop]; exact List.mem_cons_self _ _
    have hfresh : consumed.contains p = false := by
      rw [← Bool.not_eq_true]
      intro hc
      exact hcons p hpin (List.elem_iff.mp hc)
    have hcons1 : ∀ q ∈ positions.drop (i + 1), ¬q ∈ consumed ++ [p] := by
      intro q hq
      have hq0 : q ∈ positions.drop i := by rw [hdrop]; exact List.mem_cons_of_mem _ hq
      have hqp : q ≠ p := by
        rw [hdrop] at hnd
        intro he
        exact (List.nodup_cons.mp hnd).1 (he ▸ hq)
      simp only [List.mem_append, List.mem_singleton]
      rintro (hqc | hqc)
      · exact hcons q hq0 hqc
      · exact hqp hqc
    have hcons2 : ∀ q ∈ positions.drop (i + 1), ¬q ∈ consumed := by
      intro q hq
      exact hcons q (by rw [hdrop]; exact List.mem_cons_of_mem _ hq)
    have hnd1 : (positions.drop (i + 1)).Nodup := by
      rw [hdrop] at hnd
      exact (List.nodup_cons.mp hnd).2
    have hlen1 : i + 1 + rest.length ≤ positions.length := by simp at hlen; omega
    rw [hdrop]
    simp only [List.zip_cons_cons, wordScoreLoop, specWordScoreLoop,
      pyListGet_ok positions i hi, ok_bind, ← hp, hfresh, Bool.not_false, if_true]
    cases tiles.lookup p with
    | none => exact ih (i + 1) (ws + getLetterScore scores letter) wm consumed hlen1 hcons2 hnd1
    | some t =>
      by_cases h1 : t = "DL"
      · simp only [h1, if_true]
        exact ih (i + 1) _ _ _ hlen1 hcons1 hnd1
      · by_cases h2 : t = "TL"
        · simp only [h1, h2, if_false, if_true]
          exact ih (i + 1) _ _ _ hlen1 hcons1 hnd1
        · by_cases h3 : t = "DW"
          · simp only [h1, h2, h3, if_false, if_true]
            exact ih (i + 1) _ _ _ hlen1 hcons1 hnd1
          · by_cases h4 : t = "TW"
            · simp only [h1, h2, h3, h4, if_false, if_true]
              exact ih (i + 1) _ _ _ hlen1 hcons1 hnd1
            · simp only [h1, h2, h3, h4, if_false]
              exact ih (i + 1) _ _ _ hlen1 hcons2 hnd1

/-- C4 (amended): `calculate_word_score` computes exactly the spec's
`scoreWord` run with an empty consumed set that is never updated: a
Double/Triple multiplier is applied at every cell carrying one, with no
consumption check and no marking, so repeated scorings of the same special
cell keep receiving the multiplier. -/
theorem calc_word_score_is_spec_with_no_consumption
    (tiles : List (Pos × String)) (scores : List (Char × Int))
    (word : String) (positions : List Pos)
    (hnd : positions.Nodup) (hlen : word.data.length ≤ positions.length) :
    calcWordScore tiles scores word positions =
      .ok (specWordScoreConsuming tiles scores [] word positions).1 := by
  unfold calcWordScore specWordScoreConsuming
  have h := wordScoreLoop_eq_spec tiles scores positions word.data 0 0 1 []
    (by simp only [Nat.zero_add]; exact hlen) (by simp) (by simp only [List.drop_zero]; exact hnd)
  rw [List.drop_zero] at h
  rw [h, ok_bind]

/-- Witness for `calc_word_score_is_spec_with_no_consumption` at CAB on three
distinct cells. -/
theorem calc_word_score_is_spec_with_no_consumption_witness :
    calcWordScore [(((0 : Int), (0 : Int)), "DL")] LETTER_VALUES "CAB"
        [(0, 0), (0, 1), (0, 2)] =
      .ok (specWordScoreConsuming [(((0 : Int), (0 : Int)), "DL")] LETTER_VALUES
        [] "CAB" [(0, 0), (0, 1), (0, 2)]).1 :=
  calc_word_score_is_spec_with_no_consumption _ _ _ _ (by decide) (by decide)

/-- C4 (counterexample): with a Double-Letter tile at `(0,0)` and letter value
z = 10, the code scores Z at that cell as 20 on every call; under the claimed
consumption rule the second scoring of the same cell would be the unmultiplied
10.  The code's answer never changes because `calculate_word_score` carries no
consumed state at all. -/
theorem second_scoring_of_special_cell_still_multiplied :
    calcWordScore [(((0 : Int), (0 : Int)), "DL")] [('z', 10)] "Z" [(0, 0)] =
        .ok 20 ∧
      specWordScoreConsuming [(((0 : Int), (0 : Int)), "DL")] [('z', 10)] []
          "Z" [(0, 0)] = (20, [(0, 0)]) ∧
      (specWordScoreConsuming [(((0 : Int), (0 : Int)), "DL")] [('z', 10)]
          [(0, 0)] "Z" [(0, 0)]).1 = 10 ∧
      (10 : Int) ≠ 20 :=
  ⟨rfl, rfl, rfl, by decide⟩

/-! ### C8: placement of letters and of the blank marker -/

/-- Well-formed board: the nested list really is `rows × cols`. -/
def Board.Wf (b : Board) : Prop :=
  b.board.length = b.rows ∧ ∀ r ∈ b.board, r.length = b.cols

/-- `getD` after `set` at the same in-range index. -/
theorem getD_set_self {α : Type} : ∀ (l : List α) (i : Nat) (a d : α),
    i < l.length → (l.set i a).getD i d = a
  | [], i, _, _, h => absurd h (by simp)
  | _ :: _, 0, _, _, _ => rfl
  | _ :: t, i + 1, a, d, h => getD_set_self t i a d (by simpa using h)

/-- Unfold the bounds check into its four comparisons. -/
theorem isValidPosition_iff (b : Board) (row col : Int) :
    isValidPosition b row col = true ↔
      0 ≤ row ∧ row < (b.rows : Int) ∧ 0 ≤ col ∧ col < (b.cols : Int) := by
  simp [isValidPosition, and_assoc]

/-- Writing a cell of a well-formed board at an in-bounds coordinate is read
back by `cellAt`. -/
theorem cellAt_setCell (b : Board) (hwf : b.Wf) (row col : Int)
    (hpos : isValidPosition b row col = true) (v : String) :
    ((setCell b.board row.toNat col.toNat v).getD row.toNat []).getD col.toNat "" = v := by
  obtain ⟨hr0, hr, hc0, hc⟩ := (isValidPosition_iff b row col).mp hpos
  have hrt : row.toNat < b.board.length := by rw [hwf.1]; omega
  have hrow : (b.board.getD row.toNat []) ∈ b.board := by
    rw [List.getD_eq_getElem _ _ hrt]
    exact List.getElem_mem hrt
  have hct : col.toNat < (b.board.getD row.toNat []).length := by
    rw [hwf.2 _ hrow]; omega
  unfold setCell
  rw [getD_set_self _ _ _ _ (by simpa using hrt), getD_set_self _ _ _ _ hct]

/-- A board well-formed before `place_letter` stays well-formed after a write
to an in-range row. -/
theorem setCell_wf (b : Board) (hwf : b.Wf) (row col : Nat) (v : String)
    (occ : Pos → Bool) (hrt : row < b.board.length) :
    Board.Wf { b with board := setCell b.board row col v
                      special_tiles_occupied := occ } := by
  constructor
  · simp [setCell, hwf.1]
  · intro r hr
    simp only [setCell] at hr
    rcases List.mem_or_eq_of_mem_set hr with h | h
    · exact hwf.2 _ h
    · subst h
      rw [List.length_set]
      have hrow : (b.board.getD row []) ∈ b.board := by
        rw [List.getD_eq_getElem _ _ hrt]
        exact List.getElem_mem hrt
      exact hwf.2 _ hrow

/-- `pyListGet` succeeds on an in-range nonnegative index. -/
theorem pyListGet_ok_nonneg {α : Type} (l : List α) (i : Int) (h0 : 0 ≤ i)
    (h : i.toNat < l.length) : pyListGet l i = .ok (l.get ⟨i.toNat, h⟩) := by
  unfold pyListGet
  have hneg : ¬(i < 0) := by omega
  simp only [hneg, if_false]
  rw [dif_pos ⟨h0, h⟩]

/-- Bounds checking only reads `rows` and `cols`, so it is unchanged by cell
or flag updates. -/
theorem isValidPosition_update (b : Board) (bd : List (List String))
    (occ : Pos → Bool) (row col : Int) :
    isValidPosition { b with board := bd, special_tiles_occupied := occ }
        row col = isValidPosition b row col := rfl

/-- Successful run of `place_letter` on a well-formed board: in bounds, empty
cell, and a letter passing the character check. -/
theorem placeLetter_ok (b : Board) (letter : String) (row col : Int)
    (hwf : b.Wf) (hpos : isValidPosition b row col = true)
    (hemp : cellAt b row col = "") (hlen : letter.data.length = 1)
    (hletter : (!(pyIsAlpha letter) && letter != "0") = false) :
    placeLetter b letter row col = .ok
      { b with board := setCell b.board row.toNat col.toNat
                 (if letter != "0" then pyUpper letter else "")
               special_tiles_occupied :=
                 if (b.special_tiles.lookup (row, col)).isSome then
                   fun p => if p = (row, col) then true
                     else b.special_tiles_occupied p
                 else b.special_tiles_occupied } := by
  obtain ⟨hr0, hr, hc0, hc⟩ := (isValidPosition_iff b row col).mp hpos
  have hrt : row.toNat < b.board.length := by rw [hwf.1]; omega
  have hocc : isOccupied b row col = .ok false := by
    unfold isOccupied
    rw [if_pos hpos, hemp]
    rfl
  unfold placeLetter
  rw [pyListGet_ok_nonneg b.board row hr0 hrt, ok_bind]
  rw [if_neg (by omega : ¬(letter.data.length ≠ 1))]
  rw [if_neg (by rw [hletter]; exact Bool.false_ne_true)]
  rw [if_neg (by rw [hpos]; exact Bool.false_ne_true)]
  rw [hocc, ok_bind]
  rw [if_neg Bool.false_ne_true]

/-- C8 (amended): on a well-formed board, placing at an in-bounds empty cell
succeeds both for a single alphabetic letter and for the blank marker; for an
alphabetic letter the cell then holds the uppercased letter and is occupied,
while the blank marker is stored as the empty string, so the cell reads as
NOT occupied afterwards — in both cases a special tile at the coordinate is
flagged occupied. -/
theorem place_letter_effects (b : Board) (letter : String) (row col : Int)
    (hwf : b.Wf) (hpos : isValidPosition b row col = true)
    (hemp : cellAt b row col = "")
    (hlen : letter.data.length = 1) (halpha : pyIsAlpha letter = true) :
    (∃ b1, placeLetter b letter row col = .ok b1 ∧
        cellAt b1 row col = pyUpper letter ∧
        isOccupied b1 row col = .ok true ∧
        ((b.special_tiles.lookup (row, col)).isSome = true →
          b1.special_tiles_occupied (row, col) = true)) ∧
    (∃ b2, placeLetter b "0" row col = .ok b2 ∧
        cellAt b2 row col = "" ∧
        isOccupied b2 row col = .ok false ∧
        ((b.special_tiles.lookup (row, col)).isSome = true →
          b2.special_tiles_occupied (row, col) = true)) := by
  have hrt : row.toNat < b.board.length := by
    obtain ⟨hr0, hr, _, _⟩ := (isValidPosition_iff b row col).mp hpos
    rw [hwf.1]; omega
  have hne : letter ≠ "0" := by
    intro h
    rw [h] at halpha
    exact absurd halpha (by decide)
  have hneb : (letter != "0") = true := bne_iff_ne.mpr hne
  constructor
  · refine ⟨_, placeLetter_ok b letter row col hwf hpos hemp hlen
      (by rw [halpha]; rfl), ?_, ?_, ?_⟩
    · show ((setCell b.board row.toNat col.toNat _).getD row.toNat []).getD col.toNat "" = _
      rw [cellAt_setCell b hwf row col hpos]
      rw [hneb]
      rfl
    · unfold isOccupied
      rw [isValidPosition_update, if_pos hpos]
      have hcell : ((setCell b.board row.toNat col.toNat
          (if letter != "0" then pyUpper letter else "")).getD row.toNat []).getD
            col.toNat "" = pyUpper letter := by
        rw [cellAt_setCell b hwf row col hpos, hneb]
        rfl
      show Except.ok (((setCell b.board row.toNat col.toNat _).getD row.toNat
        []).getD col.toNat "" != "") = Except.ok true
      rw [hcell]
      congr 1
      rw [bne_iff_ne]
      · intro h
        have hlenU : (pyUpper letter).data.length = 1 := by
          simp [pyUpper, hlen]
        rw [h] at hlenU
        simp at hlenU
    · intro hsp
      show (if (b.special_tiles.lookup (row, col)).isSome then
          fun p => if p = (row, col) then true else b.special_tiles_occupied p
        else b.special_tiles_occupied) (row, col) = true
      rw [hsp]
      simp
  · refine ⟨_, placeLetter_ok b "0" row col hwf hpos hemp (by decide)
      (by decide), ?_, ?_, ?_⟩
    · show ((setCell b.board row.toNat col.toNat _).getD row.toNat []).getD col.toNat "" = _
      rw [cellAt_setCell b hwf row col hpos]
      rfl
    · unfold isOccupied
      rw [isValidPosition_update, if_pos hpos]
      have hcell : ((setCell b.board row.toNat col.toNat
          (if "0" != "0" then pyUpper "0" else "")).getD row.toNat []).getD
            col.toNat "" = "" := by
        rw [cellAt_setCell b hwf row col hpos]
        rfl
      show Except.ok (((setCell b.board row.toNat col.toNat _).getD row.toNat
        []).getD col.toNat "" != "") = Except.ok false
      rw [hcell]
      rfl
    · intro hsp
      show (if (b.special_tiles.lookup (row, col)).isSome then
          fun p => if p = (row, col) then true else b.special_tiles_occupied p
        else b.special_tiles_occupied) (row, col) = true
      rw [hsp]
      simp

/-- Witness for `place_letter_effects`: the lowercase letter a placed at the
centre of an empty 15×15 board. -/
theorem place_letter_effects_witness :
    (∃ b1, placeLetter emptyBoard15 "a" 7 7 = .ok b1 ∧
        cellAt b1 7 7 = pyUpper "a" ∧
        isOccupied b1 7 7 = .ok true ∧
        ((emptyBoard15.special_tiles.lookup (7, 7)).isSome = true →
          b1.special_tiles_occupied (7, 7) = true)) ∧
    (∃ b2, placeLetter emptyBoard15 "0" 7 7 = .ok b2 ∧
        cellAt b2 7 7 = "" ∧
        isOccupied b2 7 7 = .ok false ∧
        ((emptyBoard15.special_tiles.lookup (7, 7)).isSome = true →
          b2.special_tiles_occupied (7, 7) = true)) :=
  place_letter_effects emptyBoard15 "a" 7 7
    (by constructor
        · rfl
        · intro r hr
          rw [List.eq_of_mem_replicate hr]
          rfl)
    (by decide) rfl rfl rfl

/-- C8 (counterexample): placing the blank marker `'0'` at the empty in-bounds
cell `(7,7)` succeeds, but the cell is stored as the empty string and
`is_occupied(7, 7)` is `False` afterwards — not `True` as the claim states for
the blank marker case. -/
theorem place_blank_marker_cell_not_occupied :
    (placeLetter emptyBoard15 "0" 7 7).map (fun b => cellAt b 7 7) = .ok "" ∧
      (placeLetter emptyBoard15 "0" 7 7).bind (fun b => isOccupied b 7 7) =
        .ok false :=
  ⟨rfl, rfl⟩

/-! ### C9: returning tiles after a letter's key was deleted -/

/-- `setAssoc` updates the value found by `lookup`. -/
theorem lookup_setAssoc_self : ∀ (l : List (Char × Int)) (c : Char) (v x : Int),
    l.lookup c = some v → (setAssoc l c x).lookup c = some x
  | [], c, v, x, h => by simp [List.lookup] at h
  | (k, w) :: t, c, v, x, h => by
    by_cases hk : k = c
    · subst hk
      simp [setAssoc, List.lookup]
    · have hbeq : (c == k) = false := by
        simp only [beq_eq_false_iff_ne, ne_eq]
        exact fun he => hk he.symm
      simp only [setAssoc, if_neg hk, List.lookup, hbeq] at h ⊢
      exact lookup_setAssoc_self t c v x h

/-- Membership in the key list decides `lookup`. -/
theorem lookup_isSome_iff_mem (l : List (Char × Int)) (c : Char) :
    (l.lookup c).isSome = true ↔ c ∈ l.map Prod.fst := by
  induction l with
  | nil => simp [List.lookup]
  | cons p t ih =>
    obtain ⟨k, v⟩ := p
    by_cases hk : c = k
    · subst hk
      simp [List.lookup]
    · have hbeq : (c == k) = false := by
        simp only [beq_eq_false_iff_ne, ne_eq]
        exact hk
      simp only [List.lookup, hbeq, List.map_cons, List.mem_cons, ih]
      constructor
      · exact fun h => Or.inr h
      · rintro (h | h)
        · exact absurd h hk
        · exact h

/-- C9 (amended): `return_tiles(letter, n)` raises `ValueError` exactly when
`letter` is not a CURRENT key of the bank dictionary — not when it is outside
the 27 valid symbols.  When the key is present the tiles are added back.  On a
freshly initialized bank the keys are exactly the 27 valid symbols, so the
claim holds there; but `use_letters` deletes a key whose count reaches zero,
after which returning that valid symbol raises. -/
theorem return_tiles_error_iff (bank : LetterBank) (letter : Char) (num : Int) :
    (returnTiles bank letter num = .error .valueError ↔
      bank.letter_bank.lookup letter = none) ∧
    (∀ v, bank.letter_bank.lookup letter = some v →
      ∃ b1, returnTiles bank letter num = .ok b1 ∧
        b1.letter_bank.lookup letter = some (v + num) ∧
        b1.letter_bank_total = bank.letter_bank_total + num) ∧
    ((LetterBank.init.letter_bank.lookup letter).isSome = true ↔
      letter ∈ validLetters) := by
  refine ⟨?_, ?_, ?_⟩
  · unfold returnTiles
    cases h : bank.letter_bank.lookup letter with
    | some v => simp
    | none => simp
  · intro v hv
    refine ⟨{ letter_bank := setAssoc bank.letter_bank letter (v + num)
              letter_bank_total := bank.letter_bank_total + num }, ?_, ?_, rfl⟩
    · unfold returnTiles
      rw [hv]
    · exact lookup_setAssoc_self _ _ _ _ hv
  · exact lookup_isSome_iff_mem LETTER_FREQUENCIES letter

/-- Witness for `return_tiles_error_iff`: returning three a tiles to a fresh
bank succeeds and yields count 12 and total 107. -/
theorem return_tiles_error_iff_witness :
    ∃ b1, returnTiles LetterBank.init 'a' 3 = .ok b1 ∧
      b1.letter_bank.lookup 'a' = some (9 + 3) ∧
      b1.letter_bank_total = LetterBank.init.letter_bank_total + 3 :=
  (return_tiles_error_iff LetterBank.init 'a' 3).2.1 9 rfl

/-- C9 (counterexample): after `use_letters("z")` consumes the single z tile,
the key z is deleted from the bank dictionary, and `return_tiles('z', 1)` —
which the claim says must succeed since z is one of the 27 valid symbols —
raises `ValueError`. -/
theorem return_valid_letter_after_exhaustion_raises :
    useLetters LetterBank.init "z" =
        .ok (true, { letter_bank := eraseKey (setAssoc LETTER_FREQUENCIES 'z' 0) 'z'
                     letter_bank_total := sumCounts LETTER_FREQUENCIES - 1 }) ∧
      returnTiles { letter_bank := eraseKey (setAssoc LETTER_FREQUENCIES 'z' 0) 'z'
                    letter_bank_total := sumCounts LETTER_FREQUENCIES - 1 } 'z' 1 =
        .error .valueError ∧
      'z' ∈ validLetters := by
  refine ⟨rfl, rfl, by decide⟩

/-! ### C5: tile conservation -/

/-- Updating an existing key changes the sum by the difference. -/
theorem sumCounts_setAssoc : ∀ (l : List (Char × Int)) (c : Char) (v x : Int),
    l.lookup c = some v → sumCounts (setAssoc l c x) = sumCounts l - v + x
  | [], c, v, x, h => by simp [List.lookup] at h
  | (k, w) :: t, c, v, x, h => by
    by_cases hk : k = c
    · subst hk
      simp only [List.lookup, beq_self_eq_true] at h
      cases h
      simp only [setAssoc, if_pos rfl, sumCounts, List.foldr_cons]
      show x + List.foldr _ 0 t = w + List.foldr _ 0 t - w + x
      ring
    · have hbeq : (c == k) = false := by
        simp only [beq_eq_false_iff_ne, ne_eq]
        exact fun he => hk he.symm
      simp only [List.lookup, hbeq] at h
      simp only [setAssoc, if_neg hk, sumCounts, List.foldr_cons]
      have := sumCounts_setAssoc t c v x h
      simp only [sumCounts] at this
      rw [this]
      ring

/-- Appending a single pair adds its count. -/
theorem sumCounts_append_single (l : List (Char × Int)) (c : Char) (x : Int) :
    sumCounts (l ++ [(c, x)]) = sumCounts l + x := by
  induction l with
  | nil => simp [sumCounts]
  | cons p t ih =>
    simp only [List.cons_append, sumCounts, List.foldr_cons] at ih ⊢
    rw [ih]
    ring

/-- `incrAssoc` adds `x` to the sum. -/
theorem sumCounts_incrAssoc (l : List (Char × Int)) (c : Char) (x : Int) :
    sumCounts (incrAssoc l c x) = sumCounts l + x := by
  unfold incrAssoc
  cases h : l.lookup c with
  | some v =>
    rw [sumCounts_setAssoc l c v (v + x) h]
    ring
  | none => exact sumCounts_append_single l c x

/-- `setAssoc` never changes the key list. -/
theorem mapFst_setAssoc : ∀ (l : List (Char × Int)) (c : Char) (x : Int),
    (setAssoc l c x).map Prod.fst = l.map Prod.fst
  | [], _, _ => rfl
  | (k, w) :: t, c, x => by
    by_cases hk : k = c
    · subst hk
      simp [setAssoc]
    · simp only [setAssoc, if_neg hk, List.map_cons]
      rw [mapFst_setAssoc t c x]

/-- Keys found after `incrAssoc` were present before, or are the new key. -/
theorem lookup_incrAssoc_isSome (l : List (Char × Int)) (c d : Char) (x : Int)
    (h : ((incrAssoc l c x).lookup d).isSome = true) :
    (l.lookup d).isSome = true ∨ d = c := by
  unfold incrAssoc at h
  cases hc : l.lookup c with
  | some v =>
    rw [hc] at h
    left
    rw [lookup_isSome_iff_mem] at h ⊢
    rw [mapFst_setAssoc] at h
    exact h
  | none =>
    rw [hc] at h
    rw [lookup_isSome_iff_mem, List.map_append, List.mem_append] at h
    rcases h with h | h
    · exact Or.inl ((lookup_isSome_iff_mem l d).mpr h)
    · simp at h
      exact Or.inr h

/-- Deleting a key whose current count is 0 keeps the sum. -/
theorem sumCounts_eraseKey_zero : ∀ (l : List (Char × Int)) (c : Char),
    l.lookup c = some 0 → sumCounts (eraseKey l c) = sumCounts l
  | [], c, h => by simp [List.lookup] at h
  | (k, w) :: t, c, h => by
    by_cases hk : k = c
    · subst hk
      simp only [List.lookup, beq_self_eq_true] at h
      cases h
      simp [eraseKey, sumCounts]
    · have hbeq : (c == k) = false := by
        simp only [beq_eq_false_iff_ne, ne_eq]
        exact fun he => hk he.symm
      simp only [List.lookup, hbeq] at h
      simp only [eraseKey, if_neg hk, sumCounts, List.foldr_cons]
      have := sumCounts_eraseKey_zero t c h
      simp only [sumCounts] at this
      rw [this]

/-- Keys surviving `eraseKey` were present before. -/
theorem mem_mapFst_eraseKey : ∀ (l : List (Char × Int)) (c d : Char),
    d ∈ (eraseKey l c).map Prod.fst → d ∈ l.map Prod.fst
  | [], _, _, h => h
  | (k, w) :: t, c, d, h => by
    by_cases hk : k = c
    · subst hk
      simp only [eraseKey, if_pos rfl] at h
      exact List.mem_cons_of_mem _ h
    · simp only [eraseKey, if_neg hk, List.map_cons, List.mem_cons] at h ⊢
      rcases h with h | h
      · exact Or.inl h
      · exact Or.inr (mem_mapFst_eraseKey t c d h)

/-- Merging the drawn tiles into a hand adds their total. -/
theorem sumCounts_foldl_incr : ∀ (drawn h : List (Char × Int)),
    sumCounts (drawn.foldl (fun acc p => incrAssoc acc p.1 p.2) h) =
      sumCounts h + sumCounts drawn
  | [], h => by simp [sumCounts]
  | (c, x) :: rest, h => by
    simp only [List.foldl_cons]
    rw [sumCounts_foldl_incr rest (incrAssoc h c x), sumCounts_incrAssoc]
    simp only [sumCounts, List.foldr_cons]
    ring

/-- A key of a cons lookup result survives when the tail already had it. -/
theorem lookup_cons_isSome (t : List (Char × Int)) (c d : Char) (x : Int)
    (h : (t.lookup d).isSome = true) :
    (((c, x) :: t).lookup d).isSome = true := by
  rw [lookup_isSome_iff_mem] at h ⊢
  exact List.mem_cons_of_mem _ h

/-- Keys of the merged hand come from the hand or from the drawn tiles. -/
theorem lookup_foldl_incr_isSome : ∀ (drawn h : List (Char × Int)) (d : Char),
    (((drawn.foldl (fun acc p => incrAssoc acc p.1 p.2) h).lookup d).isSome = true) →
      ((h.lookup d).isSome = true ∨ (drawn.lookup d).isSome = true)
  | [], h, d, hl => Or.inl hl
  | (c, x) :: rest, h, d, hl => by
    simp only [List.foldl_cons] at hl
    rcases lookup_foldl_incr_isSome rest (incrAssoc h c x) d hl with h1 | h1
    · rcases lookup_incrAssoc_isSome h c d x h1 with h2 | h2
      · exact Or.inl h2
      · subst h2
        right
        simp [List.lookup]
    · exact Or.inr (lookup_cons_isSome rest c d x h1)

/-- Each successful `draw_tiles` run moves tiles one by one from the bank to
the drawn dict, preserving the combined sum, the bank's key list, and tracing
every drawn key back to the bank. -/
theorem drawTilesAux_spec (sel : Nat → Nat) : ∀ (n : Nat)
    (drawn : List (Char × Int)) (bank : LetterBank)
    (drawn1 : List (Char × Int)) (bank1 : LetterBank),
    drawTilesAux sel n drawn bank = .ok (drawn1, bank1) →
    sumCounts drawn1 + sumCounts bank1.letter_bank =
        sumCounts drawn + sumCounts bank.letter_bank ∧
      bank1.letter_bank.map Prod.fst = bank.letter_bank.map Prod.fst ∧
      (∀ c, ((drawn1.lookup c).isSome = true) →
        (drawn.lookup c).isSome = true ∨
          (bank.letter_bank.lookup c).isSome = true) := by
  intro n
  induction n with
  | zero =>
    intro drawn bank drawn1 bank1 h
    simp only [drawTilesAux] at h
    cases h
    exact ⟨rfl, rfl, fun c hc => Or.inl hc⟩
  | succ n ih =>
    intro drawn bank drawn1 bank1 h
    simp only [drawTilesAux] at h
    by_cases h0 : bank.letter_bank_total = 0
    · rw [if_pos h0] at h
      cases h
      exact ⟨rfl, rfl, fun c hc => Or.inl hc⟩
    · rw [if_neg h0] at h
      cases hrand : getRandomLetter bank.letter_bank (sel n) with
      | none =>
        simp only [hrand] at h
        exact Except.noConfusion h
      | some c =>
        simp only [hrand] at h
        cases hv : bank.letter_bank.lookup c with
        | none =>
          simp only [hv] at h
          exact Except.noConfusion h
        | some v =>
          simp only [hv] at h
          obtain ⟨hsum, hkeys, hdrawnkeys⟩ := ih _ _ _ _ h
          refine ⟨?_, ?_, ?_⟩
          · rw [hsum, sumCounts_incrAssoc,
              sumCounts_setAssoc bank.letter_bank c v (v - 1) hv]
            ring
          · rw [hkeys]
            exact mapFst_setAssoc bank.letter_bank c (v - 1)
          · intro d hd
            rcases hdrawnkeys d hd with h1 | h1
            · rcases lookup_incrAssoc_isSome drawn c d 1 h1 with h2 | h2
              · exact Or.inl h2
              · subst h2
                right
                rw [hv]
                rfl
            · right
              rw [lookup_isSome_iff_mem] at h1 ⊢
              rw [mapFst_setAssoc] at h1
              exact h1

/-- The conservation invariant: bank plus hand hold 104 tiles, and every
letter in the hand is still a key of the bank dictionary. -/
def ConservationInv (s : SysState) : Prop :=
  sumCounts s.1.letter_bank + sumCounts s.2.hand = 104 ∧
    ∀ c, (s.2.hand.lookup c).isSome = true →
      (s.1.letter_bank.lookup c).isSome = true

/-- One operation of claim C5's sequences preserves the invariant. -/
theorem applyOp_preserves_inv (s : SysState) (op : BankOp) (s1 : SysState)
    (hinv : ConservationInv s) (h : applyOp s op = .ok s1) :
    ConservationInv s1 := by
  obtain ⟨hsum, hkeys⟩ := hinv
  cases op with
  | draw count sel =>
    simp only [applyOp, refill] at h
    by_cases h0 : count = 0
    · rw [if_pos h0] at h
      cases h
      exact ⟨hsum, hkeys⟩
    · rw [if_neg h0] at h
      cases hdraw : drawTiles s.1 count sel with
      | error e => rw [hdraw] at h; cases h
      | ok p =>
        obtain ⟨drawn, bank1⟩ := p
        rw [hdraw, ok_bind] at h
        cases h
        obtain ⟨hdsum, hdkeys, hdtrace⟩ :=
          drawTilesAux_spec sel count [] s.1 drawn bank1 hdraw
        constructor
        · show sumCounts bank1.letter_bank +
            sumCounts (drawn.foldl (fun acc p => incrAssoc acc p.1 p.2) s.2.hand) = 104
          rw [sumCounts_foldl_incr]
          have hempty : sumCounts ([] : List (Char × Int)) = 0 := rfl
          rw [hempty] at hdsum
          omega
        · intro c hc
          show (bank1.letter_bank.lookup c).isSome = true
          have hmem : (s.1.letter_bank.lookup c).isSome = true := by
            rcases lookup_foldl_incr_isSome drawn s.2.hand c hc with h1 | h1
            · exact hkeys c h1
            · rcases hdtrace c h1 with h2 | h2
              · simp [List.lookup] at h2
              · exact h2
          rw [lookup_isSome_iff_mem, hdkeys]
          exact (lookup_isSome_iff_mem _ c).mp hmem
  | giveBack letter =>
    simp only [applyOp] at h
    cases h
    cases hl : s.2.hand.lookup letter with
    | none =>
      have hrb : returnToBank s.1 s.2 letter = (false, s.1, s.2) := by
        unfold returnToBank
        simp only [removeLetter, hl]
        rfl
      rw [hrb]
      exact ⟨hsum, hkeys⟩
    | some v =>
      by_cases hv : 0 < v
      · have hbank : (s.1.letter_bank.lookup letter).isSome = true :=
          hkeys letter (by rw [hl]; rfl)
        cases hbl : s.1.letter_bank.lookup letter with
        | none => rw [hbl] at hbank; cases hbank
        | some w =>
          have hrb : returnToBank s.1 s.2 letter =
              (true,
                { letter_bank := setAssoc s.1.letter_bank letter (w + 1)
                  letter_bank_total := s.1.letter_bank_total + 1 },
                { max_size := s.2.max_size
                  hand := if v - 1 = 0 then
                      eraseKey (setAssoc s.2.hand letter (v - 1)) letter
                    else setAssoc s.2.hand letter (v - 1)
                  hand_total := s.2.hand_total - 1 }) := by
            unfold returnToBank
            simp only [removeLetter, hl]
            rw [if_pos hv]
            simp only [returnTiles, hbl]
            rfl
          rw [hrb]
          have hhand1 : sumCounts
              (if v - 1 = 0 then eraseKey (setAssoc s.2.hand letter (v - 1)) letter
                else setAssoc s.2.hand letter (v - 1)) = sumCounts s.2.hand - 1 := by
            by_cases hz : v - 1 = 0
            · rw [if_pos hz]
              rw [sumCounts_eraseKey_zero _ letter
                (by rw [lookup_setAssoc_self s.2.hand letter v (v - 1) hl, hz])]
              rw [sumCounts_setAssoc s.2.hand letter v (v - 1) hl]
              ring
            · rw [if_neg hz]
              rw [sumCounts_setAssoc s.2.hand letter v (v - 1) hl]
              ring
          constructor
          · show sumCounts (setAssoc s.1.letter_bank letter (w + 1)) +
              sumCounts (if v - 1 = 0 then
                  eraseKey (setAssoc s.2.hand letter (v - 1)) letter
                else setAssoc s.2.hand letter (v - 1)) = 104
            rw [sumCounts_setAssoc s.1.letter_bank letter w (w + 1) hbl, hhand1]
            omega
          · intro c hc
            show ((setAssoc s.1.letter_bank letter (w + 1)).lookup c).isSome = true
            have hcold : (s.2.hand.lookup c).isSome = true := by
              rw [lookup_isSome_iff_mem] at hc ⊢
              by_cases hz : v - 1 = 0
              · rw [if_pos hz] at hc
                have hme := mem_mapFst_eraseKey _ letter c hc
                rw [mapFst_setAssoc] at hme
                exact hme
              · rw [if_neg hz] at hc
                rw [mapFst_setAssoc] at hc
                exact hc
            have hkc := hkeys c hcold
            rw [lookup_isSome_iff_mem, mapFst_setAssoc]
            exact (lookup_isSome_iff_mem _ c).mp hkc
      · have hrb : returnToBank s.1 s.2 letter = (false, s.1, s.2) := by
          unfold returnToBank
          simp only [removeLetter, hl]
          rw [if_neg hv]
          rfl
        rw [hrb]
        exact ⟨hsum, hkeys⟩

/-- Sequences of operations preserve the invariant. -/
theorem applyOps_preserves_inv : ∀ (ops : List BankOp) (s0 s : SysState),
    ConservationInv s0 → applyOps s0 ops = .ok s → ConservationInv s
  | [], s0, s, hinv, h => by
    simp only [applyOps] at h
    cases h
    exact hinv
  | op :: rest, s0, s, hinv, h => by
    simp only [applyOps] at h
    cases happ : applyOp s0 op with
    | error e =>
      rw [happ] at h
      exact Except.noConfusion h
    | ok s1 =>
      rw [happ, ok_bind] at h
      exact applyOps_preserves_inv rest s1 s
        (applyOp_preserves_inv s0 op s1 hinv happ) h

/-- C5 (amended): for every sequence of draw and return operations from a
fresh `LetterBank` and empty hand — under every possible random outcome —
the tiles in the bank plus the tiles in the hand total 104, the sum of the
canonical frequency table (no operation of these sequences puts tiles on a
board, and `Game.place_letter` moves no tile out of the hand, so board tiles
add nothing here). -/
theorem bank_hand_conservation_104 (ops : List BankOp) (s : SysState)
    (h : applyOps initSys ops = .ok s) :
    sumCounts s.1.letter_bank + sumCounts s.2.hand = 104 := by
  refine (applyOps_preserves_inv ops initSys s ⟨by decide, ?_⟩ h).1
  intro c hc
  simp [createPlayerHand, List.lookup] at hc

/-- A demonstration run: draw two tiles (the selector always picks the first
available letter), then return an a to the bank. -/
def demoOps : List BankOp := [.draw 2 (fun _ => 0), .giveBack 'a']

/-- The state after `demoOps`. -/
def demoState : SysState := ((applyOps initSys demoOps).toOption).getD initSys

/-- Witness for `bank_hand_conservation_104` on the concrete run `demoOps`. -/
theorem bank_hand_conservation_104_witness :
    sumCounts demoState.1.letter_bank + sumCounts demoState.2.hand = 104 :=
  bank_hand_conservation_104 demoOps demoState rfl

/-- C5 (counterexample): already at the initial point in time — a fresh
`LetterBank`, an empty hand, an empty board — the total number of tiles is
104, not 98: the canonical frequency table does not sum to 98. -/
theorem initial_tile_total_is_104_not_98 :
    sumCounts LetterBank.init.letter_bank + sumCounts initSys.2.hand = 104 ∧
      ¬(sumCounts LetterBank.init.letter_bank + sumCounts initSys.2.hand = 98) :=
  ⟨by decide, by decide⟩

end WordMosaic
